import Mathlib

/-!
Verification of the ContextClock time-block scheduling engine.

The definitions below are a shallow embedding of the Python sources:
`src/config_manager.py` (schedule store: load, validate, resolve),
`src/context_clock.py` (transition detector / tick evaluation, reload,
action dispatcher) and `src/actions/{websites,applications}.py`
(per-entry action loops).  Times of day are modelled as minutes since
midnight (`Nat`); Python `datetime.time` values produced by
`strptime('%H:%M')` have zero seconds, and comparison of such values
against the current time agrees with comparison of their minute counts.
-/

namespace ContextClock

/-- A stored time block, as held in the schedule mapping after a valid
load: `startM`/`endM` are the minutes-since-midnight values of the
`start`/`end` fields, and the remaining fields are the action payload
(`wallpaper`, `apps`, `websites`, `music`). -/
structure TimeBlock where
  startM : Nat
  endM : Nat
  wallpaper : Option String := none
  apps : List String := []
  websites : List String := []
  music : Option String := none
deriving Repr, DecidableEq

/-- The schedule: block name to block, in the stored (insertion)
iteration order of the Python dict `self.config`. -/
abbrev Schedule := List (String × TimeBlock)

/-- One block's matching test against the current time, from the body of
`ConfigManager.get_current_time_block` (config_manager.py lines
146-153): half-open interval when `start <= end`, wrap-around
disjunction when `start > end`. -/
def blockMatches (b : TimeBlock) (now : Nat) : Bool :=
  if b.startM ≤ b.endM then
    decide (b.startM ≤ now ∧ now < b.endM)
  else
    decide (now ≥ b.startM ∨ now < b.endM)

/-- `ConfigManager.get_current_time_block` (config_manager.py lines
141-155), with the single `datetime.now().time()` sample passed in as
`now`: scan the stored blocks in iteration order and return the first
whose range matches, else `None`. -/
def getCurrentTimeBlock (sched : Schedule) (now : Nat) : Option String :=
  match sched with
  | [] => none
  | (blockName, b) :: rest =>
      if blockMatches b now then some blockName
      else getCurrentTimeBlock rest now

/-- C1: for a stored block, resolution returns the block exactly under
the half-open matching rule — `start ≤ end` matches when
`start ≤ now < end`, `start > end` (midnight wrap) matches when
`now ≥ start ∨ now < end`; a 22:00-06:00 block matches 23:30, 00:00 and
05:59 but not 06:00 or 12:00, and a 09:00-17:00 block matches 09:00 but
not 17:00. -/
theorem resolve_matching_rule :
    (∀ (nm : String) (b : TimeBlock) (now : Nat),
      getCurrentTimeBlock [(nm, b)] now = some nm ↔
        (if b.startM ≤ b.endM then b.startM ≤ now ∧ now < b.endM
         else now ≥ b.startM ∨ now < b.endM)) ∧
    (getCurrentTimeBlock [("night", ⟨22*60, 6*60, none, [], [], none⟩)] (23*60+30)
        = some "night" ∧
     getCurrentTimeBlock [("night", ⟨22*60, 6*60, none, [], [], none⟩)] 0
        = some "night" ∧
     getCurrentTimeBlock [("night", ⟨22*60, 6*60, none, [], [], none⟩)] (5*60+59)
        = some "night" ∧
     getCurrentTimeBlock [("night", ⟨22*60, 6*60, none, [], [], none⟩)] (6*60) = none ∧
     getCurrentTimeBlock [("night", ⟨22*60, 6*60, none, [], [], none⟩)] (12*60) = none) ∧
    (getCurrentTimeBlock [("work", ⟨9*60, 17*60, none, [], [], none⟩)] (9*60)
        = some "work" ∧
     getCurrentTimeBlock [("work", ⟨9*60, 17*60, none, [], [], none⟩)] (17*60) = none) := by
  refine ⟨?_, by decide, by decide⟩
  intro nm b now
  unfold getCurrentTimeBlock blockMatches
  by_cases hle : b.startM ≤ b.endM <;>
    simp only [hle, if_true, if_false, decide_eq_true_eq] <;>
    split <;> simp_all [getCurrentTimeBlock]

/-- The stored-order scan of `get_current_time_block` agrees with
`List.find?` over the matching test: shared helper. -/
theorem getCurrentTimeBlock_eq_find (sched : Schedule) (now : Nat) :
    getCurrentTimeBlock sched now
      = (sched.find? (fun p => blockMatches p.2 now)).map Prod.fst := by
  induction sched with
  | nil => rfl
  | cons p rest ih =>
      rw [getCurrentTimeBlock, List.find?]
      by_cases h : blockMatches p.2 now <;> simp [h, ih]

/-- C6: with overlapping blocks that both match `now`, resolution
returns the block encountered first in the stored iteration order: if
every block before it fails the match and it matches, its name is
returned, whatever comes later. -/
theorem resolve_first_match_wins (pre : Schedule) (p : String × TimeBlock)
    (rest : Schedule) (now : Nat)
    (hpre : ∀ q ∈ pre, blockMatches q.2 now = false)
    (hp : blockMatches p.2 now = true) :
    getCurrentTimeBlock (pre ++ p :: rest) now = some p.1 := by
  induction pre with
  | nil => simp [getCurrentTimeBlock, hp]
  | cons q pre ih =>
      have hq := hpre q (List.mem_cons_self q pre)
      rw [List.cons_append, getCurrentTimeBlock, hq]
      simp only [Bool.false_eq_true, if_false]
      exact ih (fun r hr => hpre r (List.mem_cons_of_mem q hr))

/-- C6 witness: a schedule with two overlapping blocks, 09:00-17:00 and
10:00-18:00, resolved at 11:40 — both match, the first wins. -/
theorem resolve_first_match_wins_witness :
    getCurrentTimeBlock
      ([] ++ ("a", ⟨9*60, 17*60, none, [], [], none⟩) ::
        [("b", ⟨10*60, 18*60, none, [], [], none⟩)]) (11*60+40) = some "a" :=
  resolve_first_match_wins [] ("a", ⟨9*60, 17*60, none, [], [], none⟩)
    [("b", ⟨10*60, 18*60, none, [], [], none⟩)] (11*60+40)
    (by intro q hq; simp at hq) (by decide)

/-- C9: a degenerate block with `start == end` falls in the `start <=
end` branch, where `start <= now < end = start` is unsatisfiable; if
every block carrying a given name is degenerate, resolution never
returns that name. -/
theorem degenerate_block_never_matches :
    (∀ (b : TimeBlock) (now : Nat), b.startM = b.endM → blockMatches b now = false) ∧
    (∀ (sched : Schedule) (nm : String) (now : Nat),
      (∀ p ∈ sched, p.1 = nm → p.2.startM = p.2.endM) →
      getCurrentTimeBlock sched now ≠ some nm) := by
  have hb : ∀ (b : TimeBlock) (now : Nat), b.startM = b.endM →
      blockMatches b now = false := by
    intro b now h
    unfold blockMatches
    rw [h]
    simp
  refine ⟨hb, ?_⟩
  intro sched nm now hdeg
  induction sched with
  | nil => simp [getCurrentTimeBlock]
  | cons p rest ih =>
      rw [getCurrentTimeBlock]
      by_cases hm : blockMatches p.2 now
      · simp only [hm, if_true]
        intro hcon
        have hname : p.1 = nm := by simpa using hcon
        have := hb p.2 now (hdeg p (List.mem_cons_self p rest) hname)
        rw [hm] at this
        exact absurd this (by simp)
      · simp only [hm, if_false]
        exact ih (fun q hq => hdeg q (List.mem_cons_of_mem p hq))

/-- C9 witness: a schedule holding the degenerate block
`noon: 12:00-12:00` (plus another block) never resolves to `noon`,
here at 12:00 itself. -/
theorem degenerate_block_never_matches_witness :
    blockMatches ⟨12*60, 12*60, none, [], [], none⟩ (12*60) = false ∧
    getCurrentTimeBlock
      [("noon", ⟨12*60, 12*60, none, [], [], none⟩),
       ("day", ⟨6*60, 22*60, none, [], [], none⟩)] (12*60) ≠ some "noon" :=
  ⟨degenerate_block_never_matches.1 ⟨12*60, 12*60, none, [], [], none⟩ (12*60) rfl,
   degenerate_block_never_matches.2
     [("noon", ⟨12*60, 12*60, none, [], [], none⟩),
      ("day", ⟨6*60, 22*60, none, [], [], none⟩)] "noon" (12*60)
     (by
        intro p hp hnm
        simp only [List.mem_cons, List.not_mem_nil, or_false] at hp
        rcases hp with h | h <;> subst h <;> simp_all)⟩

/-- The transient engine state touched by `check_time_blocks`
(context_clock.py): the automation flag and the last recorded active
block name (`self.current_time_block`, initially `None`). -/
structure AppState where
  automationEnabled : Bool
  currentTimeBlock : Option String
deriving Repr, DecidableEq

/-- Observable outcome of one tick of `check_time_blocks`. -/
inductive TickResult where
  | skippedDisabled
  | noMatch
  | changed (newBlock : String) (oldBlock : Option String)
  | unchanged (block : String)
deriving Repr, DecidableEq

/-- `ContextClockApp.check_time_blocks` (context_clock.py lines
107-137), with the clock sample threaded through
`get_current_time_block` as `now`.  Returns the new state, the outcome,
and the names of the blocks whose actions were dispatched in this tick
(via `execute_time_block_actions`): empty when automation is disabled,
when no block matches, or when the resolved name equals the recorded
one. -/
def checkTimeBlocks (sched : Schedule) (now : Nat) (st : AppState) :
    AppState × TickResult × List String :=
  if st.automationEnabled = false then (st, .skippedDisabled, [])
  else
    match getCurrentTimeBlock sched now with
    | none => (st, .noMatch, [])
    | some cur =>
        if st.currentTimeBlock ≠ some cur then
          ({ st with currentTimeBlock := some cur }, .changed cur st.currentTimeBlock, [cur])
        else (st, .unchanged cur, [])

/-- The tick evaluation as a step relation, one constructor per branch
of `check_time_blocks`; the relation makes the determinism claim a
theorem rather than a typing fact. -/
inductive TickStep (sched : Schedule) (now : Nat) (st : AppState) :
    AppState × TickResult × List String → Prop where
  | disabled : st.automationEnabled = false →
      TickStep sched now st (st, .skippedDisabled, [])
  | noMatch : st.automationEnabled = true →
      getCurrentTimeBlock sched now = none →
      TickStep sched now st (st, .noMatch, [])
  | changed (cur : String) : st.automationEnabled = true →
      getCurrentTimeBlock sched now = some cur →
      st.currentTimeBlock ≠ some cur →
      TickStep sched now st
        ({ st with currentTimeBlock := some cur }, .changed cur st.currentTimeBlock, [cur])
  | unchanged (cur : String) : st.automationEnabled = true →
      getCurrentTimeBlock sched now = some cur →
      st.currentTimeBlock = some cur →
      TickStep sched now st (st, .unchanged cur, [])

/-- Shared helper: `checkTimeBlocks` realises the step relation. -/
theorem checkTimeBlocks_step (sched : Schedule) (now : Nat) (st : AppState) :
    TickStep sched now st (checkTimeBlocks sched now st) := by
  unfold checkTimeBlocks
  by_cases hen : st.automationEnabled = false
  · simp only [hen, if_true]
    exact TickStep.disabled hen
  · have hen' : st.automationEnabled = true := by
      cases h : st.automationEnabled
      · exact absurd h hen
      · rfl
    rw [if_neg hen]
    cases hres : getCurrentTimeBlock sched now with
    | none => exact TickStep.noMatch hen' hres
    | some cur =>
        by_cases hne : st.currentTimeBlock ≠ some cur
        · show TickStep sched now st (if st.currentTimeBlock ≠ some cur then _ else _)
          rw [if_pos hne]
          exact TickStep.changed cur hen' hres hne
        · have heq : st.currentTimeBlock = some cur := by
            by_contra h
            exact hne h
          show TickStep sched now st (if st.currentTimeBlock ≠ some cur then _ else _)
          rw [if_neg hne]
          exact TickStep.unchanged cur hen' hres heq

/-- Shared helper: the step relation is a function of
`(sched, now, st)`. -/
theorem tickStep_deterministic (sched : Schedule) (now : Nat) (st : AppState)
    (o₁ o₂ : AppState × TickResult × List String)
    (h₁ : TickStep sched now st o₁) (h₂ : TickStep sched now st o₂) : o₁ = o₂ := by
  cases h₁ <;> cases h₂ <;> simp_all

/-- Branch lemma: automation disabled short-circuits the tick. -/
theorem checkTimeBlocks_disabled (sched : Schedule) (now : Nat) (st : AppState)
    (h : st.automationEnabled = false) :
    checkTimeBlocks sched now st = (st, .skippedDisabled, []) := by
  unfold checkTimeBlocks
  rw [if_pos h]

/-- Branch lemma: no block matches, the tick returns early. -/
theorem checkTimeBlocks_noMatch (sched : Schedule) (now : Nat) (st : AppState)
    (hen : st.automationEnabled = true) (h : getCurrentTimeBlock sched now = none) :
    checkTimeBlocks sched now st = (st, .noMatch, []) := by
  unfold checkTimeBlocks
  rw [if_neg (by simp [hen]), h]

/-- Branch lemma: the resolved name differs from the recorded one. -/
theorem checkTimeBlocks_changed (sched : Schedule) (now : Nat) (st : AppState)
    (cur : String) (hen : st.automationEnabled = true)
    (hres : getCurrentTimeBlock sched now = some cur)
    (hne : st.currentTimeBlock ≠ some cur) :
    checkTimeBlocks sched now st
      = ({ st with currentTimeBlock := some cur }, .changed cur st.currentTimeBlock, [cur]) := by
  unfold checkTimeBlocks
  rw [if_neg (by simp [hen]), hres]
  exact if_pos hne

/-- Branch lemma: the resolved name equals the recorded one. -/
theorem checkTimeBlocks_unchanged (sched : Schedule) (now : Nat) (st : AppState)
    (cur : String) (hen : st.automationEnabled = true)
    (hres : getCurrentTimeBlock sched now = some cur)
    (heq : st.currentTimeBlock = some cur) :
    checkTimeBlocks sched now st = (st, .unchanged cur, []) := by
  unfold checkTimeBlocks
  rw [if_neg (by simp [hen]), hres]
  exact if_neg (fun h => h heq)

/-- C4: the tick evaluation is a deterministic function of
`(schedule, now, previousBlock)` — the step relation admits exactly one
outcome per input, and `checkTimeBlocks`, in which the single
`datetime.now()` sample is the explicit `now` argument, realises it; no
further clock input enters the evaluation. -/
theorem evaluate_deterministic :
    (∀ (sched : Schedule) (now : Nat) (st : AppState)
        (o₁ o₂ : AppState × TickResult × List String),
      TickStep sched now st o₁ → TickStep sched now st o₂ → o₁ = o₂) ∧
    (∀ (sched : Schedule) (now : Nat) (st : AppState),
      TickStep sched now st (checkTimeBlocks sched now st)) :=
  ⟨tickStep_deterministic, checkTimeBlocks_step⟩

/-- C4 witness: determinism applied at a concrete schedule, time and
state, forcing the unique outcome of the tick. -/
theorem evaluate_deterministic_witness :
    checkTimeBlocks [("work", ⟨9*60, 17*60, none, [], [], none⟩)] (10*60)
        ⟨true, none⟩
      = (⟨true, some "work"⟩, .changed "work" none, ["work"]) :=
  evaluate_deterministic.1 [("work", ⟨9*60, 17*60, none, [], [], none⟩)] (10*60)
    ⟨true, none⟩ _ _
    (evaluate_deterministic.2 [("work", ⟨9*60, 17*60, none, [], [], none⟩)] (10*60)
      ⟨true, none⟩)
    (TickStep.changed "work" rfl (by decide) (by simp))

/-- C5: a time covered by no block resolves to `None`, and the tick in
that case returns before touching `self.current_time_block` — the
recorded block stays sticky and nothing is dispatched. -/
theorem gap_resolves_none_and_sticky :
    (∀ (sched : Schedule) (now : Nat),
      (∀ p ∈ sched, blockMatches p.2 now = false) →
      getCurrentTimeBlock sched now = none) ∧
    (∀ (sched : Schedule) (now : Nat) (st : AppState),
      getCurrentTimeBlock sched now = none →
      (checkTimeBlocks sched now st).1 = st ∧ (checkTimeBlocks sched now st).2.2 = []) := by
  constructor
  · intro sched now hnone
    induction sched with
    | nil => rfl
    | cons p rest ih =>
        rw [getCurrentTimeBlock, hnone p (List.mem_cons_self p rest)]
        simp only [Bool.false_eq_true, if_false]
        exact ih (fun q hq => hnone q (List.mem_cons_of_mem p hq))
  · intro sched now st hres
    by_cases hen : st.automationEnabled = false
    · rw [checkTimeBlocks_disabled sched now st hen]
      exact ⟨rfl, rfl⟩
    · have hen' : st.automationEnabled = true := by
        cases h : st.automationEnabled
        · exact absurd h hen
        · rfl
      rw [checkTimeBlocks_noMatch sched now st hen' hres]
      exact ⟨rfl, rfl⟩

/-- C5 witness: schedule `work: 09:00-17:00` at 19:00 — resolution is
`None`, the recorded block `work` survives the tick and no dispatch
happens. -/
theorem gap_resolves_none_and_sticky_witness :
    getCurrentTimeBlock [("work", ⟨9*60, 17*60, none, [], [], none⟩)] (19*60) = none ∧
    (checkTimeBlocks [("work", ⟨9*60, 17*60, none, [], [], none⟩)] (19*60)
        ⟨true, some "work"⟩).1 = ⟨true, some "work"⟩ ∧
    (checkTimeBlocks [("work", ⟨9*60, 17*60, none, [], [], none⟩)] (19*60)
        ⟨true, some "work"⟩).2.2 = [] := by
  have h1 := gap_resolves_none_and_sticky.1
    [("work", ⟨9*60, 17*60, none, [], [], none⟩)] (19*60)
    (by intro p hp; simp only [List.mem_cons, List.not_mem_nil, or_false] at hp;
        subst hp; decide)
  have h2 := gap_resolves_none_and_sticky.2
    [("work", ⟨9*60, 17*60, none, [], [], none⟩)] (19*60) ⟨true, some "work"⟩ h1
  exact ⟨h1, h2.1, h2.2⟩

/-- C7: the tick is idempotent — with automation on, an unchanged
schedule, time and recorded block yield the `Unchanged` outcome with no
dispatch; running the tick twice in a row on the same inputs never
dispatches on the second run and leaves the state fixed; and a dispatch
happens exactly when the resolved name differs from the recorded
one. -/
theorem evaluate_idempotent :
    (∀ (sched : Schedule) (now : Nat) (st : AppState) (cur : String),
      st.automationEnabled = true →
      getCurrentTimeBlock sched now = some cur →
      st.currentTimeBlock = some cur →
      checkTimeBlocks sched now st = (st, .unchanged cur, [])) ∧
    (∀ (sched : Schedule) (now : Nat) (st : AppState),
      (checkTimeBlocks sched now (checkTimeBlocks sched now st).1).1
          = (checkTimeBlocks sched now st).1 ∧
      (checkTimeBlocks sched now (checkTimeBlocks sched now st).1).2.2 = []) ∧
    (∀ (sched : Schedule) (now : Nat) (st : AppState),
      (checkTimeBlocks sched now st).2.2 ≠ [] ↔
        (st.automationEnabled = true ∧
          ∃ cur, getCurrentTimeBlock sched now = some cur ∧
            st.currentTimeBlock ≠ some cur)) := by
  refine ⟨checkTimeBlocks_unchanged, ?_, ?_⟩
  · intro sched now st
    by_cases hen : st.automationEnabled = false
    · rw [checkTimeBlocks_disabled sched now st hen,
        checkTimeBlocks_disabled sched now st hen]
      exact ⟨rfl, rfl⟩
    · have hen' : st.automationEnabled = true := by
        cases h : st.automationEnabled
        · exact absurd h hen
        · rfl
      cases hres : getCurrentTimeBlock sched now with
      | none =>
          rw [checkTimeBlocks_noMatch sched now st hen' hres,
            checkTimeBlocks_noMatch sched now st hen' hres]
          exact ⟨rfl, rfl⟩
      | some cur =>
          by_cases heq : st.currentTimeBlock = some cur
          · rw [checkTimeBlocks_unchanged sched now st cur hen' hres heq,
              checkTimeBlocks_unchanged sched now st cur hen' hres heq]
            exact ⟨rfl, rfl⟩
          · rw [checkTimeBlocks_changed sched now st cur hen' hres heq]
            rw [checkTimeBlocks_unchanged sched now
              { st with currentTimeBlock := some cur } cur hen' hres rfl]
            exact ⟨rfl, rfl⟩
  · intro sched now st
    by_cases hen : st.automationEnabled = false
    · rw [checkTimeBlocks_disabled sched now st hen]
      simp [hen]
    · have hen' : st.automationEnabled = true := by
        cases h : st.automationEnabled
        · exact absurd h hen
        · rfl
      cases hres : getCurrentTimeBlock sched now with
      | none =>
          rw [checkTimeBlocks_noMatch sched now st hen' hres]
          simp [hen', hres]
      | some cur =>
          by_cases heq : st.currentTimeBlock = some cur
          · rw [checkTimeBlocks_unchanged sched now st cur hen' hres heq]
            simp [hen', hres, heq]
          · rw [checkTimeBlocks_changed sched now st cur hen' hres heq]
            constructor
            · intro _
              exact ⟨hen', cur, rfl, heq⟩
            · intro _
              exact List.cons_ne_nil cur []

/-- C7 witness: sitting inside the `work` block with the state already
recording `work`, a tick reports `Unchanged` and dispatches nothing;
the tick after a transition dispatches nothing either, and the
transition tick itself dispatched because the name changed. -/
theorem evaluate_idempotent_witness :
    checkTimeBlocks [("work", ⟨9*60, 17*60, none, [], [], none⟩)] (10*60)
        ⟨true, some "work"⟩
      = (⟨true, some "work"⟩, .unchanged "work", []) ∧
    (checkTimeBlocks [("work", ⟨9*60, 17*60, none, [], [], none⟩)] (10*60)
        (checkTimeBlocks [("work", ⟨9*60, 17*60, none, [], [], none⟩)] (10*60)
          ⟨true, none⟩).1).2.2 = [] ∧
    ((checkTimeBlocks [("work", ⟨9*60, 17*60, none, [], [], none⟩)] (10*60)
        ⟨true, none⟩).2.2 ≠ []) :=
  ⟨evaluate_idempotent.1 [("work", ⟨9*60, 17*60, none, [], [], none⟩)] (10*60)
      ⟨true, some "work"⟩ "work" rfl (by decide) rfl,
   (evaluate_idempotent.2.1 [("work", ⟨9*60, 17*60, none, [], [], none⟩)] (10*60)
      ⟨true, none⟩).2,
   (evaluate_idempotent.2.2 [("work", ⟨9*60, 17*60, none, [], [], none⟩)] (10*60)
      ⟨true, none⟩).mpr ⟨rfl, "work", by decide, by simp⟩⟩

/-- `ContextClockApp.reload_configuration` (context_clock.py lines
291-318) abstracted over the load result: on a successful load the new
schedule is in place and, when automation is enabled,
`check_time_blocks` runs immediately; on a failed load (or with
automation off) nothing is evaluated.  Returns the engine state after
the reload together with the names of blocks dispatched during it. -/
def reloadConfiguration (newSched : Schedule) (loadOk : Bool) (now : Nat)
    (st : AppState) : AppState × List String :=
  if loadOk then
    if st.automationEnabled then
      ((checkTimeBlocks newSched now st).1, (checkTimeBlocks newSched now st).2.2)
    else (st, [])
  else (st, [])


/-- C3 counterexample: automation on, state recording the active block
`work`, new schedule where `work` keeps its name and 09:00-17:00 range
but its wallpaper changed from A to B (a material definition change);
the reload succeeds and the block still resolves at 10:00, yet the
reload dispatches nothing — `check_time_blocks` only dispatches when
the resolved NAME differs from the recorded one. -/
theorem reload_changed_definition_cex :
    (⟨9*60, 17*60, some "A.jpg", [], [], none⟩ : TimeBlock)
        ≠ ⟨9*60, 17*60, some "B.jpg", [], [], none⟩ ∧
    getCurrentTimeBlock [("work", ⟨9*60, 17*60, some "B.jpg", [], [], none⟩)] (10*60)
        = some "work" ∧
    reloadConfiguration [("work", ⟨9*60, 17*60, some "B.jpg", [], [], none⟩)] true
        (10*60) ⟨true, some "work"⟩
      = (⟨true, some "work"⟩, []) := by
  refine ⟨by decide, by decide, ?_⟩
  rfl

/-- C3 amended: a successful reload with automation enabled re-runs the
tick immediately: it dispatches the resolved block's actions exactly
when the resolved name differs from the recorded current block, and
dispatches nothing — even for a materially changed definition — when
the active block's name is unchanged. -/
theorem reload_dispatches_only_on_name_change
    (newSched : Schedule) (now : Nat) (st : AppState) (cur : String)
    (hen : st.automationEnabled = true)
    (hres : getCurrentTimeBlock newSched now = some cur) :
    reloadConfiguration newSched true now st
      = (if st.currentTimeBlock ≠ some cur
         then ({ st with currentTimeBlock := some cur }, [cur])
         else (st, [])) := by
  unfold reloadConfiguration
  rw [if_pos rfl, if_pos hen]
  by_cases hne : st.currentTimeBlock ≠ some cur
  · rw [checkTimeBlocks_changed newSched now st cur hen hres hne, if_pos hne]
  · have heq : st.currentTimeBlock = some cur := by
      by_contra h
      exact hne h
    rw [checkTimeBlocks_unchanged newSched now st cur hen hres heq, if_neg hne]

/-- C3 amended witness: same reload as the counterexample but with the
recorded block `morning`: the name differs, so the reload dispatches
`work` immediately. -/
theorem reload_dispatches_only_on_name_change_witness :
    reloadConfiguration [("work", ⟨9*60, 17*60, some "B.jpg", [], [], none⟩)] true
        (10*60) ⟨true, some "morning"⟩
      = (⟨true, some "work"⟩, ["work"]) := by
  rw [reload_dispatches_only_on_name_change
    [("work", ⟨9*60, 17*60, some "B.jpg", [], [], none⟩)] (10*60)
    ⟨true, some "morning"⟩ "work" rfl (by decide)]
  decide

/-- A parsed YAML scalar as validation sees it: a string, or any
non-string value (number, null, list, deeper mapping) — `strptime`
applied to a non-string raises, so only the string case can validate. -/
inductive YLeaf where
  | str (s : String)
  | nonStr
deriving Repr, DecidableEq

/-- A parsed block value: a mapping of field name to scalar, or a
non-mapping value (rejected by the `isinstance(block_config, dict)`
check). -/
inductive YBlockVal where
  | map (kvs : List (String × YLeaf))
  | nonMap (v : YLeaf)
deriving Repr, DecidableEq

/-- The parsed top-level document: a mapping of block name to block
value, or any non-mapping result of `yaml.safe_load` (including `None`
for an empty file). -/
inductive YDoc where
  | map (kvs : List (String × YBlockVal))
  | nonMap
deriving Repr, DecidableEq

/-- Split a character list at every colon (group boundaries), so that a
well-formed `HH:MM` string yields exactly two groups. -/
def splitOnColon (cs : List Char) : List (List Char) :=
  match cs with
  | [] => [[]]
  | c :: rest =>
      let r := splitOnColon rest
      if c = ':' then [] :: r
      else
        match r with
        | [] => [[c]]
        | g :: gs => (c :: g) :: gs

/-- Decimal value of a digit string. -/
def digitsToNat (cs : List Char) : Nat :=
  cs.foldl (fun a c => a * 10 + (c.toNat - 48)) 0

/-- `datetime.strptime(s, '%H:%M')` as a total function: one or two
digits for the hour (value 0-23), a colon, one or two digits for the
minute (value 0-59), nothing left over; any other string raises
`ValueError` (modelled as `none`). -/
def parseHM (s : String) : Option (Nat × Nat) :=
  match splitOnColon s.toList with
  | [h, m] =>
      if 1 ≤ h.length ∧ h.length ≤ 2 ∧ h.all Char.isDigit ∧
         1 ≤ m.length ∧ m.length ≤ 2 ∧ m.all Char.isDigit ∧
         digitsToNat h ≤ 23 ∧ digitsToNat m ≤ 59 then
        some (digitsToNat h, digitsToNat m)
      else none
  | _ => none

/-- Python dict field access on a parsed block. -/
def lookupField (kvs : List (String × YLeaf)) (k : String) : Option YLeaf :=
  match kvs with
  | [] => none
  | (k', v) :: rest => if k' = k then some v else lookupField rest k

/-- One required time field of a block validates when it is present, is
a string, and parses as `%H:%M`; a missing field, a non-string value
(the `strptime` TypeError path) or a bad format all make the load
fail. -/
def timeFieldOk (kvs : List (String × YLeaf)) (k : String) : Bool :=
  match lookupField kvs k with
  | some (.str s) => (parseHM s).isSome
  | some .nonStr => false
  | none => false

/-- Validation of one block of `ConfigManager._validate_config`
(config_manager.py lines 68-84): the block value must be a mapping
holding parseable `start` and `end` fields. -/
def validBlock (v : YBlockVal) : Bool :=
  match v with
  | .nonMap _ => false
  | .map kvs => timeFieldOk kvs "start" && timeFieldOk kvs "end"

/-- `ConfigManager._validate_config` (config_manager.py lines 55-86):
the document must be a mapping and every block must validate. -/
def validateConfig (doc : YDoc) : Bool :=
  match doc with
  | .nonMap => false
  | .map kvs => kvs.all (fun p => validBlock p.2)

/-- The schedule store's held configuration (`self.config`). -/
structure ConfigStore where
  config : YDoc
deriving Repr, DecidableEq

/-- The three load situations `ConfigManager.load_config` distinguishes:
the file is absent (a default schedule is written out, an external
effect), reading/parsing raises, or parsing yields a document. -/
inductive LoadInput where
  | fileMissing
  | parseRaises
  | parsed (doc : YDoc)
deriving Repr, DecidableEq

/-- `ConfigManager.load_config` (config_manager.py lines 28-53): on a
missing file or a parse exception the held config is untouched and
`False` is returned; otherwise `self.config` is assigned the parsed
document FIRST (line 42) and validation only decides the returned
boolean. -/
def loadConfig (st : ConfigStore) (inp : LoadInput) : ConfigStore × Bool :=
  match inp with
  | .fileMissing => (st, false)
  | .parseRaises => (st, false)
  | .parsed doc => (⟨doc⟩, validateConfig doc)

/-- C2 counterexample: the store holds a previously loaded valid
schedule (`work: 09:00-17:00`); loading a document whose block `x` is
missing `start`/`end` fails as required, but the store afterwards holds
the invalid new document, not the prior schedule — line 42 assigns
`self.config` before validation runs. -/
theorem load_failure_keeps_schedule_cex :
    validateConfig
        (YDoc.map [("work", .map [("start", .str "09:00"), ("end", .str "17:00")])])
      = true ∧
    (loadConfig
        ⟨YDoc.map [("work", .map [("start", .str "09:00"), ("end", .str "17:00")])]⟩
        (.parsed (YDoc.map [("x", .map [])]))).2 = false ∧
    (loadConfig
        ⟨YDoc.map [("work", .map [("start", .str "09:00"), ("end", .str "17:00")])]⟩
        (.parsed (YDoc.map [("x", .map [])]))).1
      ≠ ⟨YDoc.map [("work", .map [("start", .str "09:00"), ("end", .str "17:00")])]⟩ := by
  refine ⟨by decide, rfl, by decide⟩

/-- C2 amended: every failing load reports failure, and the prior
schedule is retained exactly on the pre-parse failures (missing file,
read/parse exception); when a parsed document fails validation the
store holds that new document instead of the prior schedule. -/
theorem load_failure_reported_and_state (st : ConfigStore) (inp : LoadInput)
    (hfail : (loadConfig st inp).2 = false) :
    ((inp = .fileMissing ∨ inp = .parseRaises) → (loadConfig st inp).1 = st) ∧
    (∀ doc, inp = .parsed doc →
      validateConfig doc = false ∧ (loadConfig st inp).1.config = doc) := by
  constructor
  · intro h
    rcases h with h | h <;> subst h <;> rfl
  · intro doc h
    subst h
    exact ⟨hfail, rfl⟩

/-- C2 amended witness: a failing load of a block missing its time
fields, applied at the empty prior store. -/
theorem load_failure_reported_and_state_witness :
    validateConfig (YDoc.map [("x", .map [])]) = false ∧
    (loadConfig ⟨YDoc.map []⟩ (.parsed (YDoc.map [("x", .map [])]))).1.config
      = YDoc.map [("x", .map [])] :=
  (load_failure_reported_and_state ⟨YDoc.map []⟩
      (.parsed (YDoc.map [("x", .map [])])) (by decide)).2
    (YDoc.map [("x", .map [])]) rfl

/-- The four action kinds of the dispatcher, in the fixed source
order. -/
inductive ActionKind where
  | wallpaper
  | applications
  | websites
  | audio
deriving Repr, DecidableEq

/-- Behaviour of one underlying manager call (external side effect):
it returns a success boolean or raises. -/
inductive ActionOutcome where
  | ok (success : Bool)
  | raises
deriving Repr, DecidableEq

/-- The externally determined outcome of each manager call during one
dispatch. -/
structure ActionEnv where
  wallpaperOutcome : ActionOutcome
  appsOutcome : ActionOutcome
  websitesOutcome : ActionOutcome
  audioOutcome : ActionOutcome
deriving Repr, DecidableEq

/-- The `try` body of `_execute_wallpaper_action` (context_clock.py
lines 174-195): skipped when the field is absent or falsy, otherwise
the manager call either yields a logged boolean or raises. -/
def wallpaperBody (cfg : TimeBlock) (o : ActionOutcome) : Except String (Option Bool) :=
  match cfg.wallpaper with
  | none => .ok none
  | some w =>
      if w = "" then .ok none
      else
        match o with
        | .ok b => .ok (some b)
        | .raises => .error "wallpaper manager raised"

/-- The `try` body of `_execute_applications_action` (context_clock.py
lines 197-211). -/
def applicationsBody (cfg : TimeBlock) (o : ActionOutcome) : Except String (Option Bool) :=
  if cfg.apps = [] then .ok none
  else
    match o with
    | .ok b => .ok (some b)
    | .raises => .error "application manager raised"

/-- The `try` body of `_execute_websites_action` (context_clock.py
lines 213-227). -/
def websitesBody (cfg : TimeBlock) (o : ActionOutcome) : Except String (Option Bool) :=
  if cfg.websites = [] then .ok none
  else
    match o with
    | .ok b => .ok (some b)
    | .raises => .error "website manager raised"

/-- The `try` body of `_execute_audio_action` (context_clock.py lines
229-253). -/
def audioBody (cfg : TimeBlock) (o : ActionOutcome) : Except String (Option Bool) :=
  match cfg.music with
  | none => .ok none
  | some m =>
      if m = "" then .ok none
      else
        match o with
        | .ok b => .ok (some b)
        | .raises => .error "audio manager raised"

/-- The `except Exception` wrapper each `_execute_*_action` helper puts
around its body: a raised exception is logged and swallowed, the helper
always returns. -/
def runCaught (body : Except String (Option Bool)) : Option Bool :=
  match body with
  | .ok r => r
  | .error _ => none

/-- `ContextClockApp.execute_time_block_actions` (context_clock.py lines
139-172): with no configuration for the block it returns early;
otherwise it invokes the four helpers in the fixed order wallpaper,
applications, websites, audio.  The first component records each
attempted kind with its logged per-kind result; the second component is
the Python function's return value — `None` on every path, there is no
aggregate result list. -/
def executeTimeBlockActions (env : ActionEnv) (cfgOpt : Option TimeBlock) :
    List (ActionKind × Option Bool) × Option (List Bool) :=
  match cfgOpt with
  | none => ([], none)
  | some cfg =>
      ([(.wallpaper, runCaught (wallpaperBody cfg env.wallpaperOutcome)),
        (.applications, runCaught (applicationsBody cfg env.appsOutcome)),
        (.websites, runCaught (websitesBody cfg env.websitesOutcome)),
        (.audio, runCaught (audioBody cfg env.audioOutcome))],
       none)

/-- C8 counterexample: a fully configured block whose four manager
calls all succeed — the dispatch attempts all four kinds, but its
return value is `none` (Python `None`): no aggregate list of per-action
results is returned. -/
theorem dispatch_returns_no_aggregate_cex :
    executeTimeBlockActions ⟨.ok true, .ok true, .ok true, .ok true⟩
        (some ⟨9*60, 17*60, some "w.jpg", ["a.exe"], ["https://x.y"], some "m.mp3"⟩)
      = ([(.wallpaper, some true), (.applications, some true),
          (.websites, some true), (.audio, some true)], none) := by
  decide

/-- C8 amended: for every activated block configuration and every
combination of action outcomes — including any subset raising — the
dispatch attempts all four kinds in the fixed order wallpaper,
applications, websites, audio; a raising action is caught inside its
helper (it yields the logged no-result rather than propagating), so no
exception passes the dispatcher boundary and no later kind is skipped;
the per-action results are only logged, the dispatch itself returns
`None` rather than an aggregate list. -/
theorem dispatch_attempts_all_four :
    (∀ (env : ActionEnv) (cfg : TimeBlock),
      ((executeTimeBlockActions env (some cfg)).1.map Prod.fst
          = [.wallpaper, .applications, .websites, .audio]) ∧
      (executeTimeBlockActions env (some cfg)).2 = none) ∧
    (∀ (cfg : TimeBlock) (o : ActionOutcome) (e : String),
      (wallpaperBody cfg o = .error e → runCaught (wallpaperBody cfg o) = none) ∧
      (applicationsBody cfg o = .error e → runCaught (applicationsBody cfg o) = none) ∧
      (websitesBody cfg o = .error e → runCaught (websitesBody cfg o) = none) ∧
      (audioBody cfg o = .error e → runCaught (audioBody cfg o) = none)) := by
  constructor
  · intro env cfg
    exact ⟨rfl, rfl⟩
  · intro cfg o e
    refine ⟨?_, ?_, ?_, ?_⟩ <;> intro h <;> rw [h] <;> rfl

/-- C8 amended witness: with every manager call raising, the dispatch
still attempts all four kinds in order and returns `None`; the raising
wallpaper body is caught by its helper. -/
theorem dispatch_attempts_all_four_witness :
    ((executeTimeBlockActions ⟨.raises, .raises, .raises, .raises⟩
        (some ⟨9*60, 17*60, some "w.jpg", ["a.exe"], ["https://x.y"], some "m.mp3"⟩)).1.map
          Prod.fst
      = [.wallpaper, .applications, .websites, .audio]) ∧
    runCaught (wallpaperBody
        ⟨9*60, 17*60, some "w.jpg", ["a.exe"], ["https://x.y"], some "m.mp3"⟩ .raises)
      = none :=
  ⟨(dispatch_attempts_all_four.1 ⟨.raises, .raises, .raises, .raises⟩
      ⟨9*60, 17*60, some "w.jpg", ["a.exe"], ["https://x.y"], some "m.mp3"⟩).1,
   (dispatch_attempts_all_four.2
      ⟨9*60, 17*60, some "w.jpg", ["a.exe"], ["https://x.y"], some "m.mp3"⟩ .raises
      "wallpaper manager raised").1 rfl⟩

/-- The loop of `WebsiteManager.open_websites` (websites.py lines
74-86): for each URL in order, a truthy entry with non-blank strip is
stripped and handed to `open_website` (whose external success the
`oracle` decides) and its boolean is appended; a blank entry appends
`False` with no open attempted.  Returns the result list together with
the stripped URLs actually handed to `open_website`, in order. -/
def openWebsitesRun (oracle : String → Bool) : List String → List Bool × List String
  | [] => ([], [])
  | url :: rest =>
      let r := openWebsitesRun oracle rest
      if url ≠ "" ∧ url.trim ≠ "" then
        (oracle url.trim :: r.1, url.trim :: r.2)
      else (false :: r.1, r.2)

/-- `WebsiteManager.open_websites` on a list argument (websites.py
lines 56-90): the `if not urls` guard returns an empty result, which
coincides with the loop on the empty list. -/
def openWebsites (oracle : String → Bool) (urls : List String) :
    List Bool × List String :=
  if urls.isEmpty then ([], []) else openWebsitesRun oracle urls

/-- The loop of `ApplicationManager.launch_applications`
(applications.py lines 89-101): identical shape, over application
paths and `launch_application`. -/
def launchApplicationsRun (oracle : String → Bool) :
    List String → List Bool × List String
  | [] => ([], [])
  | appPath :: rest =>
      let r := launchApplicationsRun oracle rest
      if appPath ≠ "" ∧ appPath.trim ≠ "" then
        (oracle appPath.trim :: r.1, appPath.trim :: r.2)
      else (false :: r.1, r.2)

/-- `ApplicationManager.launch_applications` on a list argument
(applications.py lines 72-101). -/
def launchApplications (oracle : String → Bool) (appPaths : List String) :
    List Bool × List String :=
  if appPaths.isEmpty then ([], []) else launchApplicationsRun oracle appPaths

/-- Shared helper: the websites loop is per-entry — results are the
entrywise image of the input, attempts are the stripped non-blank
entries in order. -/
theorem openWebsitesRun_spec (oracle : String → Bool) (urls : List String) :
    (openWebsitesRun oracle urls).1
        = urls.map (fun u => if u ≠ "" ∧ u.trim ≠ "" then oracle u.trim else false) ∧
    (openWebsitesRun oracle urls).2
        = (urls.filter (fun u => decide (u ≠ "" ∧ u.trim ≠ ""))).map String.trim := by
  induction urls with
  | nil => exact ⟨rfl, rfl⟩
  | cons u rest ih =>
      rw [openWebsitesRun]
      by_cases h : u ≠ "" ∧ u.trim ≠ ""
      · simp [h, ih.1, ih.2, List.filter_cons]
      · simp [h, ih.1, ih.2, List.filter_cons]

/-- Shared helper: the applications loop, same shape. -/
theorem launchApplicationsRun_spec (oracle : String → Bool) (ps : List String) :
    (launchApplicationsRun oracle ps).1
        = ps.map (fun u => if u ≠ "" ∧ u.trim ≠ "" then oracle u.trim else false) ∧
    (launchApplicationsRun oracle ps).2
        = (ps.filter (fun u => decide (u ≠ "" ∧ u.trim ≠ ""))).map String.trim := by
  induction ps with
  | nil => exact ⟨rfl, rfl⟩
  | cons u rest ih =>
      rw [launchApplicationsRun]
      by_cases h : u ≠ "" ∧ u.trim ≠ ""
      · simp [h, ih.1, ih.2, List.filter_cons]
      · simp [h, ih.1, ih.2, List.filter_cons]

/-- C10: both `open_websites` and `launch_applications` return exactly
one boolean per input entry in input order; an entry whose strip is
blank contributes `False` and is never handed to the underlying
open/launch call — the attempted list consists precisely of the
stripped non-blank entries, in order. -/
theorem per_entry_results_and_skips :
    (∀ (oracle : String → Bool) (urls : List String),
      (openWebsites oracle urls).1.length = urls.length ∧
      (openWebsites oracle urls).1
          = urls.map (fun u => if u ≠ "" ∧ u.trim ≠ "" then oracle u.trim else false) ∧
      (openWebsites oracle urls).2
          = (urls.filter (fun u => decide (u ≠ "" ∧ u.trim ≠ ""))).map String.trim) ∧
    (∀ (oracle : String → Bool) (ps : List String),
      (launchApplications oracle ps).1.length = ps.length ∧
      (launchApplications oracle ps).1
          = ps.map (fun u => if u ≠ "" ∧ u.trim ≠ "" then oracle u.trim else false) ∧
      (launchApplications oracle ps).2
          = (ps.filter (fun u => decide (u ≠ "" ∧ u.trim ≠ ""))).map String.trim) := by
  constructor
  · intro oracle urls
    have hrun := openWebsitesRun_spec oracle urls
    have hws : openWebsites oracle urls = openWebsitesRun oracle urls := by
      unfold openWebsites
      cases urls with
      | nil => rfl
      | cons u rest => rfl
    rw [hws, hrun.1, hrun.2]
    exact ⟨by rw [List.length_map], rfl, rfl⟩
  · intro oracle ps
    have hrun := launchApplicationsRun_spec oracle ps
    have hla : launchApplications oracle ps = launchApplicationsRun oracle ps := by
      unfold launchApplications
      cases ps with
      | nil => rfl
      | cons u rest => rfl
    rw [hla, hrun.1, hrun.2]
    exact ⟨by rw [List.length_map], rfl, rfl⟩

end ContextClock
